import Mathlib

/-!
Verification of the lauyami backend against its specification.

Shallow embedding: the Python services are translated into pure Lean
functions.  External effects (the Qdrant vector-search client, the LLM
endpoint, the relational database, wall-clock time) are represented by
explicit inputs: query responses become input lists, the clock becomes a
`now : Nat` parameter, and a raised Python exception becomes the `error`
case of `Except`.  Machine-level details that the code never relies on
are kept as plain `Nat`/`Rat` values.
-/

namespace Util

/-! ### List utilities -/
/-- Worker for `chunkList`; `fuel` bounds the recursion depth so the
definition is structural (and therefore reducible by the kernel). -/
def chunkListGo (bs : Nat) : Nat → List α → List (List α)
  | _, [] => []
  | 0, l => [l]
  | fuel + 1, x :: rest => (x :: rest.take (bs - 1)) :: chunkListGo bs fuel (rest.drop (bs - 1))

/-- Split a list into consecutive chunks of length `bs` (the last chunk
may be shorter); `bs ≥ 1` in every use below. -/
def chunkList (bs : Nat) (l : List α) : List (List α) := chunkListGo bs l.length l

end Util

namespace Md5

/-! ### MD5 (`hashlib.md5`)

The backend keys its analysis cache and derives session-chunk point ids
from MD5 digests.  `hashlib` is the Python standard library; the standard
MD5 algorithm (RFC 1321) is embedded here so digests are computable. -/
def mod32 (n : Nat) : Nat := n % 4294967296

/-- Bitwise complement of a 32-bit word. -/
def compl32 (x : Nat) : Nat := Nat.xor x 4294967295

def rotl (x s : Nat) : Nat := mod32 (x <<< s) ||| (x >>> (32 - s))

def funF (b c d : Nat) : Nat := (b &&& c) ||| (compl32 b &&& d)

def funG (b c d : Nat) : Nat := (d &&& b) ||| (compl32 d &&& c)

def funH (b c d : Nat) : Nat := Nat.xor (Nat.xor b c) d

def funI (b c d : Nat) : Nat := Nat.xor c (b ||| compl32 d)

/-- Round constants `K[i] = floor(2^32 * abs(sin(i + 1)))` (RFC 1321). -/
def K : List Nat :=
  [0xd76aa478, 0xe8c7b756, 0x242070db, 0xc1bdceee,
   0xf57c0faf, 0x4787c62a, 0xa8304613, 0xfd469501,
   0x698098d8, 0x8b44f7af, 0xffff5bb1, 0x895cd7be,
   0x6b901122, 0xfd987193, 0xa679438e, 0x49b40821,
   0xf61e2562, 0xc040b340, 0x265e5a51, 0xe9b6c7aa,
   0xd62f105d, 0x02441453, 0xd8a1e681, 0xe7d3fbc8,
   0x21e1cde6, 0xc33707d6, 0xf4d50d87, 0x455a14ed,
   0xa9e3e905, 0xfcefa3f8, 0x676f02d9, 0x8d2a4c8a,
   0xfffa3942, 0x8771f681, 0x6d9d6122, 0xfde5380c,
   0xa4beea44, 0x4bdecfa9, 0xf6bb4b60, 0xbebfbc70,
   0x289b7ec6, 0xeaa127fa, 0xd4ef3085, 0x04881d05,
   0xd9d4d039, 0xe6db99e5, 0x1fa27cf8, 0xc4ac5665,
   0xf4292244, 0x432aff97, 0xab9423a7, 0xfc93a039,
   0x655b59c3, 0x8f0ccc92, 0xffeff47d, 0x85845dd1,
   0x6fa87e4f, 0xfe2ce6e0, 0xa3014314, 0x4e0811a1,
   0xf7537e82, 0xbd3af235, 0x2ad7d2bb, 0xeb86d391]

/-- Per-round left-rotation amounts (RFC 1321). -/
def S : List Nat :=
  [7, 12, 17, 22, 7, 12, 17, 22, 7, 12, 17, 22, 7, 12, 17, 22,
   5, 9, 14, 20, 5, 9, 14, 20, 5, 9, 14, 20, 5, 9, 14, 20,
   4, 11, 16, 23, 4, 11, 16, 23, 4, 11, 16, 23, 4, 11, 16, 23,
   6, 10, 15, 21, 6, 10, 15, 21, 6, 10, 15, 21, 6, 10, 15, 21]

/-- UTF-8 encoding of one character (Python `str.encode()` is UTF-8). -/
def utf8Char (c : Char) : List Nat :=
  let n := c.toNat
  if n < 0x80 then [n]
  else if n < 0x800 then
    [0xC0 ||| (n >>> 6), 0x80 ||| (n &&& 0x3F)]
  else if n < 0x10000 then
    [0xE0 ||| (n >>> 12), 0x80 ||| ((n >>> 6) &&& 0x3F), 0x80 ||| (n &&& 0x3F)]
  else
    [0xF0 ||| (n >>> 18), 0x80 ||| ((n >>> 12) &&& 0x3F),
     0x80 ||| ((n >>> 6) &&& 0x3F), 0x80 ||| (n &&& 0x3F)]

def utf8 (s : String) : List Nat := s.data.flatMap utf8Char

/-- Pad a byte message to a multiple of 64 bytes: append `0x80`, zero
bytes up to 56 mod 64, then the bit length as 8 little-endian bytes. -/
def padded (msg : List Nat) : List Nat :=
  let bitLen := (8 * msg.length) % (2 ^ 64)
  let zeros := (120 - ((msg.length + 1) % 64)) % 64
  msg ++ [0x80] ++ List.replicate zeros 0 ++
    ((List.range 8).map fun i => (bitLen >>> (8 * i)) &&& 0xFF)

/-- Decode a 4-byte little-endian word. -/
def wordOfBytes (bs : List Nat) : Nat :=
  bs.getD 0 0 + (bs.getD 1 0) * 256 + (bs.getD 2 0) * 65536 + (bs.getD 3 0) * 16777216

/-- Encode a 32-bit word as 4 little-endian bytes. -/
def bytesOfWord (x : Nat) : List Nat :=
  [x &&& 0xFF, (x >>> 8) &&& 0xFF, (x >>> 16) &&& 0xFF, (x >>> 24) &&& 0xFF]

/-- One of the 64 MD5 rounds over message words `M`. -/
def step (M : List Nat) (st : Nat × Nat × Nat × Nat) (i : Nat) : Nat × Nat × Nat × Nat :=
  let (a, b, c, d) := st
  let fg : Nat × Nat :=
    if i < 16 then (funF b c d, i)
    else if i < 32 then (funG b c d, (5 * i + 1) % 16)
    else if i < 48 then (funH b c d, (3 * i + 5) % 16)
    else (funI b c d, (7 * i) % 16)
  let tmp := mod32 (a + fg.1 + K.getD i 0 + M.getD fg.2 0)
  (d, mod32 (b + rotl tmp (S.getD i 0)), b, c)

/-- Compress one 64-byte block into the running state. -/
def compress (st : Nat × Nat × Nat × Nat) (block : List Nat) : Nat × Nat × Nat × Nat :=
  let M := (Util.chunkList 4 block).map wordOfBytes
  let r := (List.range 64).foldl (step M) st
  (mod32 (st.1 + r.1), mod32 (st.2.1 + r.2.1), mod32 (st.2.2.1 + r.2.2.1),
   mod32 (st.2.2.2 + r.2.2.2))

def md5Bytes (msg : List Nat) : List Nat :=
  let st := (Util.chunkList 64 (padded msg)).foldl compress
    (0x67452301, 0xefcdab89, 0x98badcfe, 0x10325476)
  bytesOfWord st.1 ++ bytesOfWord st.2.1 ++ bytesOfWord st.2.2.1 ++ bytesOfWord st.2.2.2

def hexDigit (n : Nat) : Char := "0123456789abcdef".data.getD n '0'

def byteHex (b : Nat) : List Char := [hexDigit (b / 16), hexDigit (b % 16)]

/-- `hashlib.md5(s.encode()).hexdigest()`. -/
def md5Hex (s : String) : String := String.mk ((md5Bytes (utf8 s)).flatMap byteHex)

end Md5

namespace CacheService

/-! ### Cache service (`src/api/services/cache_service.py`)

The module-level dict `_analysis_cache` is made an explicit value of type
`Cache` (a key-ordered association list, mirroring a Python dict with
unique keys), and `datetime.now()` becomes an explicit `now : Nat`
(seconds).  `datetime` values are always truthy in Python, so the
`if cached_time and ...` guard reduces to the age comparison. -/
structure CacheEntry where
  analysis : String
  timestamp : Nat
  language : String
deriving DecidableEq

abbrev Cache := List (String × CacheEntry)

/-- `CACHE_TTL = timedelta(hours=24)`, in seconds. -/
def CACHE_TTL : Nat := 24 * 60 * 60

/-- `_generate_cache_key`: MD5 hex digest of `"{agreement_text}:{language}"`. -/
def generate_cache_key (agreement_text language : String) : String :=
  Md5.md5Hex (agreement_text ++ ":" ++ language)

/-- Python dict lookup `d.get(k)` / `k in d`. -/
def dictGet (k : String) : Cache → Option CacheEntry
  | [] => none
  | (k2, v) :: rest => if k2 = k then some v else dictGet k rest

/-- Python dict assignment `d[k] = v`: overwrite in place or append. -/
def dictSet (k : String) (v : CacheEntry) : Cache → Cache
  | [] => [(k, v)]
  | (k2, v2) :: rest => if k2 = k then (k, v) :: rest else (k2, v2) :: dictSet k v rest

/-- Python `del d[k]`. -/
def dictDel (k : String) (c : Cache) : Cache := c.filter fun p => !(p.1 == k)

/-- `get_cached_analysis`: returns the cached text if present and younger
than 24 hours; an expired entry is deleted on access.  Returns the
(possibly shrunk) cache alongside the result. -/
def get_cached_analysis (now : Nat) (cache : Cache) (agreement_text : String)
    (language : String) : Option String × Cache :=
  let cache_key := generate_cache_key agreement_text language
  match dictGet cache_key cache with
  | some cached =>
      if now - cached.timestamp < CACHE_TTL then (some cached.analysis, cache)
      else (none, dictDel cache_key cache)
  | none => (none, cache)

/-- `_cleanup_expired_cache`: drop entries aged `CACHE_TTL` or more. -/
def cleanup_expired_cache (now : Nat) (c : Cache) : Cache :=
  c.filter fun p => now - p.2.timestamp < CACHE_TTL

/-- `set_cached_analysis`: insert/overwrite the entry, then sweep expired
entries when the cache holds more than 1000 entries. -/
def set_cached_analysis (now : Nat) (cache : Cache) (agreement_text analysis language : String) :
    Cache :=
  let cache_key := generate_cache_key agreement_text language
  let c := dictSet cache_key
    { analysis := analysis, timestamp := now, language := language } cache
  if c.length > 1000 then cleanup_expired_cache now c else c

end CacheService

namespace Search

/-! ### Search service (`src/api/services/search_service.py`)

The Qdrant client and the per-session store are external: the raw
session-store chunk dictionaries and the main-store query response become
inputs.  A swallowed session-query failure (the `except` around the
session block) and a swallowed main-query failure are the `[]` /
`none` inputs respectively.  Embedding and filter construction only shape
the outbound network request, which is part of those inputs. -/
/-- A Python dictionary restricted to the keys the search service reads
(a Qdrant point payload or a session-store chunk).  The outer `Option` is
key presence; the inner `Option` distinguishes a stored `None` from a
value, so that `d.get(k, default)` is modelled exactly by `pyGet`. -/
structure PyDict where
  section_title : Option (Option String) := none
  title : Option (Option String) := none
  jurisdiction : Option (Option String) := none
  feed_author : Option (Option String) := none
  document_title : Option (Option String) := none
  feed_name : Option (Option String) := none
  document_type : Option (Option (List String)) := none
  article_authors : Option (Option (List String)) := none
  document_id : Option (Option String) := none
  url : Option (Option String) := none
  chunk_text : Option (Option String) := none
  score : Option (Option Rat) := none
deriving DecidableEq

/-- Python `d.get(k, default)`: the stored value (possibly `None`) when
the key is present, otherwise the default. -/
def pyGet (field : Option (Option α)) (default : Option α) : Option α :=
  match field with
  | some v => v
  | none => default

/-- Modelled from the spec: `SearchResult` (src/api/models/api_models.py is
not under src/).  Its field list is pinned by spec §3 and by
tests/unit/test_api_models.py, which constructs it with exactly these
fields and allows `None` for jurisdiction, document_title, document_id
and score.  Scores are relevance floats that the code only compares and
defaults to 0.0, so they are modelled as rationals. -/
structure SearchResult where
  section_title : Option String
  jurisdiction : Option String
  document_title : Option String
  document_type : Option (List String)
  document_id : Option String
  chunk_text : Option String
  score : Option Rat
deriving DecidableEq

/-- A Qdrant `ScoredPoint` as the service reads it: numeric id, optional
payload, optional score. -/
structure ScoredPoint where
  id : Nat
  payload : Option PyDict
  score : Option Rat
deriving DecidableEq

/-- The `SearchResult(...)` construction applied to one session chunk
(`query_with_filters`, session branch). -/
def sessionResultOf (chunk : PyDict) : SearchResult :=
  { section_title := pyGet chunk.section_title (pyGet chunk.title (some "")),
    jurisdiction := pyGet chunk.jurisdiction (pyGet chunk.feed_author none),
    document_title := pyGet chunk.document_title (pyGet chunk.feed_name none),
    document_type := pyGet chunk.document_type (pyGet chunk.article_authors (some [])),
    document_id := pyGet chunk.document_id (pyGet chunk.url none),
    chunk_text := pyGet chunk.chunk_text none,
    score := pyGet chunk.score (some 0) }

/-- The `SearchResult(...)` construction applied to one main-store point
payload (`payload = point.payload or {}`) and the point score. -/
def mainResultOf (payload : PyDict) (score : Option Rat) : SearchResult :=
  { section_title := pyGet payload.section_title (pyGet payload.title (some "")),
    jurisdiction := pyGet payload.jurisdiction (pyGet payload.feed_author none),
    document_title := pyGet payload.document_title (pyGet payload.feed_name none),
    document_type := pyGet payload.document_type (pyGet payload.article_authors (some [])),
    document_id := pyGet payload.document_id (pyGet payload.url none),
    chunk_text := pyGet payload.chunk_text none,
    score := score }

/-- Main-store loop of `query_with_filters`: deduplicate by point id
(`seen_ids`), keeping the first occurrence. -/
def mainResultsGo (seen : List Nat) : List ScoredPoint → List SearchResult
  | [] => []
  | point :: rest =>
      if point.id ∈ seen then mainResultsGo seen rest
      else mainResultOf (point.payload.getD {}) point.score :: mainResultsGo (point.id :: seen) rest

/-- Main-store results of `query_with_filters`: a failed or empty query
response contributes nothing; point-id deduplicated hits are truncated to
`limit` (`results = results[:limit]`). -/
def query_with_filters_main (response : Option (List ScoredPoint)) (limit : Nat) :
    List SearchResult :=
  (match response with
   | some points => mainResultsGo [] points
   | none => []).take limit

/-- Python truthiness of an optional string (`if result.document_id`). -/
def idTruthy : Option String → Bool
  | none => false
  | some s => !(s == "")

/-- Final-merge loop of `query_with_filters`: keep a result only if its
`document_id` is truthy and unseen. -/
def dedupTruthyGo (seen : List String) : List SearchResult → List SearchResult
  | [] => []
  | r :: rest =>
      match r.document_id with
      | some s =>
          if s = "" then dedupTruthyGo seen rest
          else if s ∈ seen then dedupTruthyGo seen rest
          else r :: dedupTruthyGo (s :: seen) rest
      | none => dedupTruthyGo seen rest

/-- Sort key: `x.score or 0.0`. -/
def scoreKey (r : SearchResult) : Rat := r.score.getD 0

/-- Stable insertion for descending sort: `r` goes before the first
element whose key is `≤` its own, so earlier elements win ties —
the behaviour of Python `list.sort(key=..., reverse=True)`. -/
def insertDesc (r : SearchResult) : List SearchResult → List SearchResult
  | [] => [r]
  | x :: xs => if scoreKey x ≤ scoreKey r then r :: x :: xs else x :: insertDesc r xs

/-- Stable descending sort by score. -/
def sortDesc (l : List SearchResult) : List SearchResult := l.foldr insertDesc []

/-- `query_with_filters` after the two query responses are in hand:
convert session chunks, convert + point-id-dedup + truncate main hits,
concatenate session first, dedup by truthy `document_id`, sort
descending by score, truncate to `limit`. -/
def query_with_filters (session_chunks : List PyDict) (response : Option (List ScoredPoint))
    (limit : Nat) : List SearchResult :=
  let session_results := session_chunks.map sessionResultOf
  let results := query_with_filters_main response limit
  let combined_results := session_results ++ results
  (sortDesc (dedupTruthyGo [] combined_results)).take limit

/-- Loop of `query_unique_titles`: skip untitled or already-seen titles,
accumulate, and break as soon as `limit` results are collected. -/
def uniqueTitlesGo (limit : Nat) (seen : List String) (count : Nat) :
    List ScoredPoint → List SearchResult
  | [] => []
  | point :: rest =>
      let payload := point.payload.getD {}
      match pyGet payload.section_title (pyGet payload.title none) with
      | none => uniqueTitlesGo limit seen count rest
      | some t =>
          if t = "" then uniqueTitlesGo limit seen count rest
          else if t ∈ seen then uniqueTitlesGo limit seen count rest
          else
            let r : SearchResult :=
              { section_title := some t,
                jurisdiction := pyGet payload.jurisdiction (pyGet payload.feed_author none),
                document_title := pyGet payload.document_title (pyGet payload.feed_name none),
                document_type := pyGet payload.document_type (pyGet payload.article_authors (some [])),
                document_id := pyGet payload.document_id (pyGet payload.url none),
                chunk_text := pyGet payload.chunk_text none,
                score := point.score }
            if count + 1 ≥ limit then [r]
            else r :: uniqueTitlesGo limit (t :: seen) (count + 1) rest

/-- `query_unique_titles` after the main-store response is in hand; this
function issues no session-collection query at all (the session store
does not appear among its inputs). -/
def query_unique_titles (response : Option (List ScoredPoint)) (limit : Nat) :
    List SearchResult :=
  match response with
  | some points => uniqueTitlesGo limit [] 0 points
  | none => []

/-- Specification-side reference: the full first-occurrence
title-deduplicated result list, with no early exit. -/
def allUniqueTitles (seen : List String) : List ScoredPoint → List SearchResult
  | [] => []
  | point :: rest =>
      let payload := point.payload.getD {}
      match pyGet payload.section_title (pyGet payload.title none) with
      | none => allUniqueTitles seen rest
      | some t =>
          if t = "" then allUniqueTitles seen rest
          else if t ∈ seen then allUniqueTitles seen rest
          else
            { section_title := some t,
              jurisdiction := pyGet payload.jurisdiction (pyGet payload.feed_author none),
              document_title := pyGet payload.document_title (pyGet payload.feed_name none),
              document_type := pyGet payload.document_type (pyGet payload.article_authors (some [])),
              document_id := pyGet payload.document_id (pyGet payload.url none),
              chunk_text := pyGet payload.chunk_text none,
              score := point.score } :: allUniqueTitles (t :: seen) rest

/-- Specification-side reference for C2: first-occurrence deduplication by
the raw `document_id` value (no truthiness filtering). -/
def dedupByIdGo (seen : List (Option String)) : List SearchResult → List SearchResult
  | [] => []
  | r :: rest =>
      if r.document_id ∈ seen then dedupByIdGo seen rest
      else r :: dedupByIdGo (r.document_id :: seen) rest

/-- The merge exactly as claim C2 words it: concatenate session results
before main results, keep the first occurrence of each `document_id`,
sort descending by score (absent scores count as 0.0), truncate to
`limit`. -/
def claimed_merge (session_results main_results : List SearchResult) (limit : Nat) :
    List SearchResult :=
  (sortDesc (dedupByIdGo [] (session_results ++ main_results))).take limit

end Search

/-- Concrete session chunk used by the C2 witness. -/
def c2chunk : Search.PyDict := { document_id := some (some "sess-doc"), score := some (some 3) }

/-- Concrete main-store response used by the C2 witness; point 8 shares the
session chunk's `document_id`. -/
def c2points : List Search.ScoredPoint :=
  [{ id := 7, payload := some { document_id := some (some "law-1") }, score := some 5 },
   { id := 8, payload := some { document_id := some (some "sess-doc") }, score := some 9 }]

namespace Providers

/-! ### Provider registry (`src/api/models/provider_models.py`) and
generation service (`src/api/services/generation_service.py`) -/
inductive ProviderSort
  | latency
deriving DecidableEq

/-- `ModelConfig` with its source defaults.  `temperature` is a sampling
float used only as opaque request data; it is modelled as a rational. -/
structure ModelConfig where
  primary_model : String := ""
  candidate_models : List String := []
  provider_sort : ProviderSort := ProviderSort.latency
  stream : Bool := false
  max_completion_tokens : Nat := 5000
  temperature : Rat := 0
deriving DecidableEq

structure ModelRegistry where
  models : List (String × ModelConfig) := []
deriving DecidableEq

/-- Python `str.lower()`; the provider names in play are ASCII, where
`.lower()` agrees with `Char.toLower`. -/
def pyLower (s : String) : String := String.mk (s.data.map Char.toLower)

/-- Python `provider_lower not in self.models` / `self.models[...]`. -/
def regGet (k : String) : List (String × ModelConfig) → Option ModelConfig
  | [] => none
  | (k2, v) :: rest => if k2 = k then some v else regGet k rest

/-- `ModelRegistry.get_config`: lower-case the name, raise `ValueError`
when it is not a key of `models`. -/
def ModelRegistry.get_config (r : ModelRegistry) (provider : String) :
    Except String ModelConfig :=
  let provider_lower := pyLower provider
  match regGet provider_lower r.models with
  | none => Except.error ("ModelConfig not found for provider: " ++ provider)
  | some c => Except.ok c

/-- `MODEL_REGISTRY`: the only registered provider is `natlas`, with
temperature 0.1 and max completion tokens 4000. -/
def MODEL_REGISTRY : ModelRegistry :=
  { models := [("natlas",
      { primary_model := "n-atlas", temperature := 0.1, max_completion_tokens := 4000 })] }

end Providers

namespace Generation

/-- What a successful `get_streaming_function` call captures in its
returned stream closure: the lower-cased provider name that selects the
`stream_openai` / `stream_natlas` branch, and the resolved model
configuration passed to it.  The rendered prompt
(`build_research_prompt(contexts, query=query)`, a pure string template)
does not influence provider resolution and is not modelled. -/
structure StreamPlan where
  provider_lower : String
  config : Providers.ModelConfig
deriving DecidableEq

/-- `get_streaming_function`: the registry lookup happens during this
call — raising `ValueError` for an unknown provider right there — while
the returned closure is the only place any network interaction lives. -/
def get_streaming_function (provider : String) (query : String)
    (contexts : List Search.SearchResult) (selected_model : Option String := none) :
    Except String StreamPlan :=
  let provider_lower := Providers.pyLower provider
  match Providers.MODEL_REGISTRY.get_config provider_lower with
  | Except.error e => Except.error e
  | Except.ok config => Except.ok { provider_lower := provider_lower, config := config }

end Generation

namespace Natlas

/-! ### N-ATLaS provider (`src/api/services/providers/natlas_service.py`)

The OpenAI-client call is external: its outcome is an explicit input.
`stream_natlas` is an async generator; its observable behaviour is the
sequence of yielded chunks plus whether it raised, which `GenStream`
captures. -/
/-- One chunk of the OpenAI streaming response as the code reads it:
`chunk.choices[0].delta.content` and `chunk.choices[0].finish_reason`. -/
structure StreamEvent where
  delta : Option String
  finish_reason : Option String
deriving DecidableEq

/-- Outcome of `natlas_client.chat.completions.create(..., stream=True)`:
the call raises, or it returns a stream of events (optionally failing
mid-iteration after some events). -/
inductive CreateResult
  | failure (detail : String)
  | stream (events : List StreamEvent)
  | streamThenFail (events : List StreamEvent) (detail : String)
deriving DecidableEq

/-- Observable behaviour of one generator run: the yielded chunks in
order, and the exception it raised, if any. -/
structure GenStream where
  chunks : List String
  raised : Option String
deriving DecidableEq

/-- Python truthiness of `delta_text` / `finish_reason`. -/
def strTruthy : Option String → Bool
  | none => false
  | some s => !(s == "")

/-- The `async for` body: yield each truthy content delta. -/
def contentChunks (events : List StreamEvent) : List String :=
  events.filterMap fun e => if strTruthy e.delta then e.delta else none

/-- `last_finish_reason`: the last truthy finish reason seen. -/
def lastFinishReason (events : List StreamEvent) : Option String :=
  events.foldl (fun acc e => if strTruthy e.finish_reason then e.finish_reason else acc) none

/-- The literal error chunk yielded when the provider call fails. -/
def errorChunk (detail : String) : String :=
  "__error__: Failed to connect to N-ATLaS LLM service. Please ensure the Modal service is deployed and running. Error: " ++ detail

/-- `stream_natlas`.  The unconfigured-base-URL guard sits before the
`try`, so it raises; everything inside the `try` degrades to a single
in-band error chunk. -/
def stream_natlas (llm_base_url : String) (call : CreateResult) : GenStream :=
  if llm_base_url = "" then
    { chunks := [],
      raised := some "Modal LLM base URL not configured. Set MODAL__LLM_BASE_URL in .env" }
  else
    match call with
    | CreateResult.failure detail => { chunks := [errorChunk detail], raised := none }
    | CreateResult.stream events =>
        { chunks := contentChunks events ++
            (if lastFinishReason events = some "length" then ["__truncated__"] else []),
          raised := none }
    | CreateResult.streamThenFail events detail =>
        { chunks := contentChunks events ++ [errorChunk detail], raised := none }

end Natlas

namespace Analysis

/-! ### Legal analysis stream (`src/api/services/legal_analysis_service.py`)

On a cache miss `analyze_agreement_for_risks_stream` runs three fixed
retrieval queries sequentially, each wrapped in a 15-second
`asyncio.wait_for`; the outcome of each wrapped query (contexts returned,
`TimeoutError`, or another exception) is an explicit input.  The model
covers the emitted progress lines from "Starting analysis..." through the
post-loop re-emission block, together with the accumulated `results`
list the later prompt is built from. -/
/-- Outcome of one `asyncio.wait_for(fetch_context(...), timeout=15.0)`. -/
inductive QueryOutcome
  | ok (contexts : List Search.SearchResult)
  | timeout
  | error
deriving DecidableEq

/-- The three fixed query labels, in order. -/
def labels : List String := ["rights", "warnings", "procedures"]

/-- Python `str.capitalize()`: first character upper-cased, the rest
lower-cased. -/
def pyCapitalize (s : String) : String :=
  match s.data with
  | [] => ""
  | c :: rest => String.mk (c.toUpper :: rest.map Char.toLower)

def analyzingLine (label : String) : String :=
  "__progress__:Analyzing " ++ label ++ "...\n"

def analyzedLine (label : String) : String :=
  "__progress__:✓ " ++ pyCapitalize label ++ " analyzed\n"

def timedOutLine (label : String) : String :=
  "__progress__:⚠ " ++ pyCapitalize label ++ " timed out\n"

def failedLine (label : String) : String :=
  "__progress__:⚠ " ++ pyCapitalize label ++ " failed\n"

/-- The completion marker emitted right after one query finishes. -/
def markerLine (label : String) : QueryOutcome → String
  | QueryOutcome.ok _ => analyzedLine label
  | QueryOutcome.timeout => timedOutLine label
  | QueryOutcome.error => failedLine label

/-- The contexts recorded in `results` for one query. -/
def recordedContexts : QueryOutcome → List Search.SearchResult
  | QueryOutcome.ok contexts => contexts
  | QueryOutcome.timeout => []
  | QueryOutcome.error => []

/-- Cache-miss emissions of `analyze_agreement_for_risks_stream` from the
"Starting analysis..." line up to (excluding) the
"Generating analysis..." line, paired with the accumulated `results`
list.  The loop emits "Analyzing {label}..." then exactly one completion
marker per query; a second loop then re-emits "✓ {Label} analyzed" for
every entry of `results`, whatever its outcome was. -/
def riskQueryEmissions (o1 o2 o3 : QueryOutcome) :
    List String × List (String × List Search.SearchResult) :=
  let qs := labels.zip [o1, o2, o3]
  (["__progress__:Starting analysis...\n"]
      ++ qs.flatMap (fun lo => [analyzingLine lo.1, markerLine lo.1 lo.2])
      ++ qs.map (fun lo => analyzedLine lo.1),
   qs.map fun lo => (lo.1, recordedContexts lo.2))

/-- Number of completion-marker lines for `label` in a stream. -/
def completionCount (stream : List String) (label : String) : Nat :=
  stream.count (analyzedLine label) + stream.count (timedOutLine label) +
    stream.count (failedLine label)

end Analysis

namespace Splitter

/-! ### Text splitter (`src/utils/text_splitter.py`, `src/config.py`)

Modelled from the spec: `TextSplitter.split_text` delegates to the external
`langchain_text_splitters.RecursiveCharacterTextSplitter`, whose source is
not part of this repository; §4.13 of the specification describes the
algorithm — recursive separator-preference splitting with the configured
separator order, chunk size and overlap — and that description is what is
embedded here.  The chunk size (4000), overlap (400) and the ordered
separator list are the source defaults of `TextSplitterSettings` in
`src/config.py`.  Texts are processed as character lists. -/
/-- Find the first occurrence of the (non-empty) separator: returns the
piece up to and including the separator, and the remainder. -/
def splitAtSep (sep : List Char) : List Char → Option (List Char × List Char)
  | [] => none
  | c :: rest =>
      if sep.isPrefixOf (c :: rest) then some (sep, (c :: rest).drop sep.length)
      else (splitAtSep sep rest).map fun p => (c :: p.1, p.2)

/-- Worker for `splitKeepSep`; `fuel` bounds the recursion depth so the
definition is structural. -/
def splitKeepSepGo (sep : List Char) : Nat → List Char → List (List Char)
  | 0, text => if text = [] then [] else [text]
  | fuel + 1, text =>
      match splitAtSep sep text with
      | none => if text = [] then [] else [text]
      | some (pre, post) => pre :: splitKeepSepGo sep fuel post

/-- Split `text` at every occurrence of the (non-empty) separator `sep`,
keeping each separator attached to the piece before it, so that the
pieces concatenate back to `text`. -/
def splitKeepSep (sep : List Char) (text : List Char) : List (List Char) :=
  splitKeepSepGo sep text.length text

/-- Recursive separator-preference splitting (§4.13): a piece no larger
than `chunkSize` is kept whole; otherwise it is split on the first
separator and every piece is refined with the remaining separators; the
empty separator splits into single characters as the terminal
fallback. -/
def recSplit (chunkSize : Nat) : (seps : List (List Char)) → (text : List Char) → List (List Char)
  | [], text => [text]
  | sep :: rest, text =>
      if text.length ≤ chunkSize then [text]
      else if hs : sep = [] then text.map fun c => [c]
      else (splitKeepSep sep text).flatMap (recSplit chunkSize rest)

/-- A produced chunk, kept as the pair of its leading overlap (copied from
the end of the previous chunk) and its fresh contribution. -/
structure ChunkPiece where
  ov : List Char
  contrib : List Char
deriving DecidableEq

def chunkOf (c : ChunkPiece) : List Char := c.ov ++ c.contrib

/-- The last `n` characters of a list. -/
def takeRight (n : Nat) (l : List Char) : List Char := l.drop (l.length - n)

/-- Greedy chunk assembly (§4.13): pieces are packed into the current
chunk while it stays within `chunkSize`; when a piece does not fit, the
chunk is emitted and the next chunk starts with up to `ovLen` characters
of trailing overlap copied from it. -/
def mergeAux (chunkSize ovLen : Nat) (cur : ChunkPiece) : List (List Char) → List ChunkPiece
  | [] => [cur]
  | p :: ps =>
      if cur.ov.length + cur.contrib.length + p.length ≤ chunkSize then
        mergeAux chunkSize ovLen { cur with contrib := cur.contrib ++ p } ps
      else
        let m := min ovLen (chunkSize - p.length)
        cur :: mergeAux chunkSize ovLen { ov := takeRight m (chunkOf cur), contrib := p } ps

def mergePieces (chunkSize ovLen : Nat) : List (List Char) → List ChunkPiece
  | [] => []
  | p :: ps => mergeAux chunkSize ovLen { ov := [], contrib := p } ps

/-- The source default separator list of `TextSplitterSettings`
(src/config.py): numbered-paragraph markers, then sentence terminators,
then whitespace, then the empty string as last resort. -/
def separators : List String :=
  [" 1. ", " 2. ", " 3. ", " 4. ", " 5. ", " 6. ",
   " 7. ", " 8. ", " 9. ", " 10. ", " 11. ", " 12. ",
   " 13. ", " 14. ", " 15. ", " 16. ", " 17. ", " 18. ",
   " 19. ", " 20. ", " 21. ", " 22. ", " 23. ", " 24. ",
   " 25. ", " 26. ", " 27. ", " 28. ", " 29. ", "\n1. ",
   "\n2. ", "\n3. ", "\n4. ", "\n5. ", "\n6. ", "\n7. ",
   "\n8. ", "\n9. ", "\n10. ", "\n11. ", "\n12. ", "\n13. ",
   "\n14. ", "\n15. ", "\n16. ", "\n17. ", "\n18. ", "\n19. ",
   "\n20. ", "\n21. ", "\n22. ", "\n23. ", "\n24. ", "\n25. ",
   "\n26. ", "\n27. ", "\n28. ", "\n29. ", ".\n", ". ",
   "! ", "? ", "\n", " ", ""]

/-- `chunk_size` default (src/config.py). -/
def chunk_size : Nat := 4000

/-- `chunk_overlap` default (src/config.py). -/
def chunk_overlap : Nat := 400

/-- `TextSplitter().split_text` with the source defaults, per §4.13. -/
def split_text (text : String) : List String :=
  (mergePieces chunk_size chunk_overlap
      (recSplit chunk_size (separators.map String.data) text.data)).map
    fun c => String.mk (chunkOf c)

end Splitter

namespace SessionStore

/-! ### Session vector store (`src/api/services/session_vectorstore_service.py`,
`src/models/vectorstore_models.py`)

`ArticleChunkPayload` is a pydantic v2 `BaseModel`; its declared fields
are the legacy names below (its docstring maps them to the semantic ones:
`url` represents `document_id`, `title` represents `section_title`, and
so on).  A pydantic v2 model with the default `extra` behaviour ignores
constructor keyword arguments that are not declared fields and raises
`AttributeError` for `None` attribute use, which is what decides claim
C1.  The two timestamp fields (`published_at`, `created_at`, defaulted to
`datetime.now()` and never read on this path) are omitted. -/
structure ArticleChunkPayload where
  feed_name : String := ""
  feed_author : String := ""
  article_authors : List String := []
  title : String := ""
  url : Option String := none
  chunk_index : Nat := 0
  chunk_text : Option String := none
deriving DecidableEq

/-- The `ArticleChunkPayload(...)` construction inside
`SessionVectorStore.ingest_document`: of the six keyword arguments passed
there (`section_title`, `document_title`, `jurisdiction`,
`document_type`, `document_id`, `chunk_text`) only `chunk_text` is a
declared field of the model; pydantic v2 with the default `extra`
behaviour discards the other five, leaving every remaining field at its
default — in particular `url = None`. -/
def articleChunkPayloadInit (section_title document_title jurisdiction : String)
    (document_type : List String) (document_id : String) (chunk_text : String) :
    ArticleChunkPayload :=
  { chunk_text := some chunk_text }

/-- Value of one hexadecimal digit, as `int(_, 16)` reads it. -/
def hexCharVal (c : Char) : Nat :=
  if c.toNat ≥ 48 ∧ c.toNat ≤ 57 then c.toNat - 48
  else if c.toNat ≥ 97 then c.toNat - 87
  else c.toNat - 55

/-- Python `int(s, 16)` for a hex string. -/
def hexToNat (s : String) : Nat := s.data.foldl (fun acc c => acc * 16 + hexCharVal c) 0

/-- `int(hashlib.md5(payload.url.encode()).hexdigest()[:8], 16)`: when
`url` is `None`, the `.encode()` attribute access raises. -/
def chunkIdOf (payload : ArticleChunkPayload) : Except String Nat :=
  match payload.url with
  | none => Except.error "AttributeError: NoneType object has no attribute encode"
  | some u => Except.ok (hexToNat ((Md5.md5Hex u).take 8))

/-- `SessionVectorStore.ingest_document`: split with the shared splitter,
build one payload and point id per chunk, upsert, and return the chunk
count.  Embedding and upsert traffic to Qdrant is external; the value
returned on success is the list of (point id, payload) pairs that would
be upserted (sub-batching in tens leaves that set and the returned count
unchanged) together with the count. -/
def ingest_document (session_id : String) (text : String) (filename : String) :
    Except String (List (Nat × ArticleChunkPayload) × Nat) :=
  let chunks := Splitter.split_text text
  if chunks.isEmpty then Except.ok ([], 0)
  else do
    let pairs ← chunks.enum.mapM fun ic => do
      let payload := articleChunkPayloadInit
        ("Section " ++ toString (ic.1 + 1))
        ("Uploaded Agreement: " ++ filename)
        "User Upload"
        ["user_upload"]
        (session_id ++ "__chunk_" ++ toString ic.1)
        ic.2
      let chunk_id ← chunkIdOf payload
      pure (chunk_id, payload)
    pure (pairs, pairs.length)

end SessionStore

namespace Ingest

/-! ### Relational ingestion task (`src/pipelines/tasks/ingest_document.py`,
`src/models/article_models.py`, `src/models/sql_models.py`)

`ArticleItem` is a pydantic v2 model declaring only the legacy field
names (its docstring maps `url` to `document_id`, `feed_name` to
`document_title`, and so on); the SQLAlchemy `LegalDocument` likewise has
only the legacy columns, while the repository's own test schema
(tests/test_models/test_sql_models.py) uses the semantic names.  pydantic
v2 raises `AttributeError` for access to an undeclared attribute, which
is what decides claim C6.  The database session becomes explicit state:
`db` is the committed row set, and `sessionClosed` mirrors the
`finally: session.close()` that runs on every exit path. -/
structure ArticleItem where
  feed_name : String := ""
  feed_author : String := ""
  title : String := ""
  url : String := ""
  content : String := ""
  article_authors : List String := []
  published_at : Option String := none
deriving DecidableEq

/-- The `ArticleItem(...)` construction in
`create_document_items_from_pdf` (src/pipelines/tasks/extract_pdf.py): of
the seven keyword arguments passed there only `content` is a declared
field; pydantic v2 with the default `extra` behaviour discards the
rest. -/
def articleItemInit (document_title jurisdiction section_title document_id content : String)
    (document_type : List String) (effective_date : Option String) : ArticleItem :=
  { content := content }

/-- Python attribute access `document.document_id`: `ArticleItem` declares
no `document_id` field, and a pydantic v2 model raises `AttributeError`
for an undeclared attribute. -/
def ArticleItem.attr_document_id (_ : ArticleItem) : Except String String :=
  Except.error "AttributeError: ArticleItem object has no attribute document_id"

/-- Python attribute access `document.document_title` inside
`_persist_batch`: likewise undeclared. -/
def ArticleItem.attr_document_title (_ : ArticleItem) : Except String String :=
  Except.error "AttributeError: ArticleItem object has no attribute document_title"

/-- The legacy columns of the SQLAlchemy `LegalDocument`
(src/models/sql_models.py); the id/uuid/timestamp columns are
server-side and omitted. -/
structure LegalDocument where
  feed_name : String
  feed_author : String
  article_authors : List String
  title : String
  url : String
  content : String
deriving DecidableEq

/-- `_persist_batch`: builds `document_model(document_title=..., ...)` for
each item.  The first evaluated argument, `document.document_title`,
raises (no such attribute); even past that, the SQLAlchemy declarative
constructor would reject the semantic keyword names, which are not
columns of `LegalDocument`. -/
def persist_batch (batch : List ArticleItem) : Except String (List LegalDocument) :=
  batch.mapM fun document => do
    let _v ← document.attr_document_title
    Except.error "TypeError: document_title is an invalid keyword argument for LegalDocument"

/-- State returned by the ingestion loop. -/
structure LoopOut where
  raised : Option String
  db : List LegalDocument
  skipped : Nat
  errors : List String
deriving DecidableEq

/-- The `for i, document in enumerate(document_items, start=1)` loop of
`ingest_documents`, with the current batch buffer and counters as
explicit state.  An exception escaping the loop body (outside the
per-batch `try`) is `raised`; per-batch failures are rolled back and
recorded in `errors`. -/
def ingestLoop (batch_size : Nat) (skip_existing : Bool) :
    List ArticleItem → Nat → List LegalDocument → List ArticleItem → Nat → List String →
    LoopOut
  | [], _, db, batch, skipped, errors =>
      if batch.isEmpty then { raised := none, db := db, skipped := skipped, errors := errors }
      else
        match persist_batch batch with
        | Except.ok rows =>
            { raised := none, db := db ++ rows, skipped := skipped, errors := errors }
        | Except.error _ =>
            { raised := none, db := db, skipped := skipped, errors := errors ++ ["Final batch"] }
  | document :: rest, i, db, batch, skipped, errors =>
      if skip_existing then
        match document.attr_document_id with
        | Except.error e => { raised := some e, db := db, skipped := skipped, errors := errors }
        | Except.ok _document_id =>
            -- dead branch: `filter_by(document_id=...)` would raise anyway,
            -- since `LegalDocument` declares no `document_id` column
            { raised := some "InvalidRequestError: Entity LegalDocument has no property document_id",
              db := db, skipped := skipped, errors := errors }
      else
        let batch2 := batch ++ [document]
        if batch2.length ≥ batch_size then
          match persist_batch batch2 with
          | Except.ok rows =>
              ingestLoop batch_size skip_existing rest (i + 1) (db ++ rows) [] skipped errors
          | Except.error _ =>
              ingestLoop batch_size skip_existing rest (i + 1) db [] skipped
                (errors ++ ["Batch " ++ toString (i / batch_size)])
        else ingestLoop batch_size skip_existing rest (i + 1) db batch2 skipped errors

/-- Result of one `ingest_documents` run. -/
structure IngestResult where
  db : List LegalDocument
  skipped : Nat
  errors : List String
  raised : Option String
  sessionClosed : Bool
deriving DecidableEq

/-- `ingest_documents`: run the loop, then raise the aggregate
`RuntimeError` when any batch failed; the session is closed on every exit
path (`finally`).  The aggregate message renders the error labels
comma-separated (Python formats the list with `repr`). -/
def ingest_documents (batch_size : Nat) (db0 : List LegalDocument)
    (document_items : List ArticleItem) (skip_existing : Bool := true) : IngestResult :=
  let out := ingestLoop batch_size skip_existing document_items 1 db0 [] 0 []
  match out.raised with
  | some e =>
      { db := out.db, skipped := out.skipped, errors := out.errors,
        raised := some e, sessionClosed := true }
  | none =>
      if out.errors.isEmpty then
        { db := out.db, skipped := out.skipped, errors := out.errors,
          raised := none, sessionClosed := true }
      else
        { db := out.db, skipped := out.skipped, errors := out.errors,
          raised := some ("RuntimeError: Ingestion completed with errors: " ++
            String.intercalate ", " out.errors),
          sessionClosed := true }

end Ingest

/-! ### Theorems -/

namespace CacheService

theorem dictGet_dictSet_self (k : String) (v : CacheEntry) (c : Cache) :
    dictGet k (dictSet k v c) = some v := by
  induction c with
  | nil => simp [dictSet, dictGet]
  | cons p rest ih =>
      obtain ⟨k2, v2⟩ := p
      by_cases h : k2 = k
      · simp [dictSet, h, dictGet]
      · simp [dictSet, h, dictGet, ih]

theorem dictGet_dictSet_ne (k k2 : String) (v : CacheEntry) (c : Cache) (h : k2 ≠ k) :
    dictGet k2 (dictSet k v c) = dictGet k2 c := by
  induction c with
  | nil => simp [dictSet, dictGet, Ne.symm h]
  | cons p rest ih =>
      obtain ⟨k3, v3⟩ := p
      by_cases h3 : k3 = k
      · subst h3
        simp [dictSet, dictGet, Ne.symm h]
      · simp [dictSet, h3, dictGet, ih]

theorem dictGet_filter_of_keep (k : String) (e : CacheEntry) (c : Cache)
    (p : String × CacheEntry → Bool) (hl : dictGet k c = some e) (hp : p (k, e) = true) :
    dictGet k (c.filter p) = some e := by
  induction c with
  | nil => simp [dictGet] at hl
  | cons q rest ih =>
      obtain ⟨k2, v2⟩ := q
      rw [List.filter_cons]
      by_cases h : k2 = k
      · subst h
        simp only [dictGet, if_pos rfl] at hl
        injection hl with h2
        subst h2
        simp [hp, dictGet]
      · simp only [dictGet, if_neg h] at hl
        by_cases hq : p (k2, v2) = true
        · simp [hq, dictGet, h, ih hl]
        · simp only [Bool.not_eq_true] at hq
          simp [hq, ih hl]

theorem dictGet_filter_of_none (k : String) (c : Cache) (p : String × CacheEntry → Bool)
    (hl : dictGet k c = none) : dictGet k (c.filter p) = none := by
  induction c with
  | nil => simp [dictGet]
  | cons q rest ih =>
      obtain ⟨k2, v2⟩ := q
      rw [List.filter_cons]
      by_cases h : k2 = k
      · subst h
        simp [dictGet] at hl
      · simp only [dictGet, if_neg h] at hl
        by_cases hq : p (k2, v2) = true
        · simp [hq, dictGet, h, ih hl]
        · simp only [Bool.not_eq_true] at hq
          simp [hq, ih hl]

/-- Helper: the freshly inserted entry is young, so the `> 1000` sweep
inside `set_cached_analysis` keeps it. -/
theorem dictGet_set_self (now : Nat) (cache : Cache) (T A L : String) :
    dictGet (generate_cache_key T L) (set_cached_analysis now cache T A L) =
      some { analysis := A, timestamp := now, language := L } := by
  unfold set_cached_analysis
  set key := generate_cache_key T L
  set e : CacheEntry := { analysis := A, timestamp := now, language := L }
  by_cases h : (dictSet key e cache).length > 1000
  · simp only [h, if_true]
    refine dictGet_filter_of_keep key e _ _ (dictGet_dictSet_self key e cache) ?_
    simp [e, CACHE_TTL]
  · simp only [h, if_false]
    exact dictGet_dictSet_self key e cache

theorem dictGet_set_other (now : Nat) (cache : Cache) (T A L : String) (k : String)
    (hk : k ≠ generate_cache_key T L) (hmiss : dictGet k cache = none) :
    dictGet k (set_cached_analysis now cache T A L) = none := by
  unfold set_cached_analysis
  set key := generate_cache_key T L
  set e : CacheEntry := { analysis := A, timestamp := now, language := L }
  have hbase : dictGet k (dictSet key e cache) = none :=
    (dictGet_dictSet_ne key k e cache hk).trans hmiss
  by_cases h : (dictSet key e cache).length > 1000
  · simp only [h, if_true]
    exact dictGet_filter_of_none k _ _ hbase
  · simp only [h, if_false]
    exact hbase

end CacheService

/-- C7: for every agreement text `T` and language `L`, after
`set_cached_analysis T A L` an immediate `get_cached_analysis T L` returns
exactly `A`; a `get` for a different language `L2` with no prior entry for
`(T, L2)` (whose MD5 key, as in every non-colliding instance, differs from
the key of `(T, L)`) returns absent; and the cache key is the MD5 hex
digest of the string `T ++ ":" ++ L`. -/
theorem C7_cache_round_trip (now : Nat) (cache : CacheService.Cache)
    (T A L L2 : String) (hL : L2 ≠ L)
    (hkey : CacheService.generate_cache_key T L2 ≠ CacheService.generate_cache_key T L)
    (hmiss : CacheService.dictGet (CacheService.generate_cache_key T L2) cache = none) :
    (CacheService.get_cached_analysis now
        (CacheService.set_cached_analysis now cache T A L) T L).1 = some A ∧
    (CacheService.get_cached_analysis now
        (CacheService.set_cached_analysis now cache T A L) T L2).1 = none ∧
    CacheService.generate_cache_key T L = Md5.md5Hex (T ++ ":" ++ L) := by
  refine ⟨?_, ?_, rfl⟩
  · simp only [CacheService.get_cached_analysis]
    rw [CacheService.dictGet_set_self now cache T A L]
    simp [CacheService.CACHE_TTL]
  · simp only [CacheService.get_cached_analysis]
    rw [CacheService.dictGet_set_other now cache T A L _ hkey hmiss]

set_option maxRecDepth 100000 in
/-- Witness for C7 at concrete inputs (empty cache, `now = 0`). -/
theorem C7_cache_round_trip_witness :
    (CacheService.get_cached_analysis 0
        (CacheService.set_cached_analysis 0 [] "agreement text" "analysis result" "en")
        "agreement text" "en").1 = some "analysis result" ∧
    (CacheService.get_cached_analysis 0
        (CacheService.set_cached_analysis 0 [] "agreement text" "analysis result" "en")
        "agreement text" "yo").1 = none := by
  have h := C7_cache_round_trip 0 [] "agreement text" "analysis result" "en" "yo"
    (by decide) (by decide) rfl
  exact ⟨h.1, h.2.1⟩

namespace Search

theorem mem_insertDesc {x r : SearchResult} {l : List SearchResult} :
    x ∈ insertDesc r l ↔ x = r ∨ x ∈ l := by
  induction l with
  | nil => simp [insertDesc]
  | cons y ys ih =>
      by_cases h : scoreKey y ≤ scoreKey r
      · simp [insertDesc, h]
      · simp [insertDesc, h, ih]
        tauto

theorem mem_sortDesc {x : SearchResult} {l : List SearchResult} :
    x ∈ sortDesc l ↔ x ∈ l := by
  induction l with
  | nil => simp [sortDesc]
  | cons y ys ih =>
      simp only [sortDesc, List.foldr_cons] at ih ⊢
      rw [mem_insertDesc, ih, List.mem_cons]

theorem dedupTruthyGo_truthy (l : List SearchResult) :
    ∀ (seen : List String), ∀ r ∈ dedupTruthyGo seen l, idTruthy r.document_id = true := by
  induction l with
  | nil => intro seen r hr; simp [dedupTruthyGo] at hr
  | cons x rest ih =>
      intro seen r hr
      cases hx : x.document_id with
      | none =>
          rw [dedupTruthyGo, hx] at hr
          exact ih seen r hr
      | some s =>
          rw [dedupTruthyGo, hx] at hr
          dsimp only at hr
          by_cases h1 : s = ""
          · rw [if_pos h1] at hr
            exact ih seen r hr
          · rw [if_neg h1] at hr
            by_cases h2 : s ∈ seen
            · rw [if_pos h2] at hr
              exact ih seen r hr
            · rw [if_neg h2] at hr
              rcases List.mem_cons.mp hr with h | h
              · subst h
                simp [idTruthy, hx, h1]
              · exact ih _ r h

/-- When every candidate has a truthy `document_id`, the code's
dedup-with-dropping agrees with the claim's plain first-occurrence
dedup. -/
theorem dedupTruthyGo_eq_dedupByIdGo (l : List SearchResult) :
    ∀ (seen : List String), (∀ r ∈ l, idTruthy r.document_id = true) →
      dedupTruthyGo seen l = dedupByIdGo (seen.map some) l := by
  induction l with
  | nil => intro seen _; rfl
  | cons x rest ih =>
      intro seen h
      have hx := h x (List.mem_cons_self x rest)
      have hrest : ∀ r ∈ rest, idTruthy r.document_id = true :=
        fun r hr => h r (List.mem_cons_of_mem x hr)
      cases hdoc : x.document_id with
      | none => simp [idTruthy, hdoc] at hx
      | some s =>
          have hs : ¬s = "" := by
            simp only [idTruthy, hdoc, Bool.not_eq_true'] at hx
            simpa [beq_iff_eq] using hx
          rw [dedupTruthyGo, dedupByIdGo, hdoc]
          dsimp only
          rw [if_neg hs]
          have hmem : (some s ∈ seen.map some) ↔ s ∈ seen := by
            simp
          by_cases h2 : s ∈ seen
          · rw [if_pos h2, if_pos (hmem.mpr h2)]
            exact ih seen hrest
          · rw [if_neg h2, if_neg (fun hc => h2 (hmem.mp hc))]
            have := ih (s :: seen) hrest
            simp only [List.map_cons] at this
            rw [this]

end Search

/-- C10: every result returned by `query_with_filters` has a present,
non-empty `document_id`: candidates whose `document_id` (after the legacy
`url` fallback) is absent, `None`, or empty are dropped by the final
merge for every combination of session chunks, main response and
limit. -/
theorem C10_query_with_filters_truthy_ids (session_chunks : List Search.PyDict)
    (response : Option (List Search.ScoredPoint)) (limit : Nat) :
    (Search.query_with_filters session_chunks response limit).all
      (fun r => Search.idTruthy r.document_id) = true := by
  rw [List.all_eq_true]
  intro r hr
  simp only [Search.query_with_filters] at hr
  have hr2 := Search.mem_sortDesc.mp (List.mem_of_mem_take hr)
  exact Search.dedupTruthyGo_truthy _ _ r hr2

/-- C2: whenever every candidate carries a truthy `document_id` (the case
claim C2 describes; C10 covers the dropped remainder), the value returned
by `query_with_filters` is exactly: session results concatenated before
main results, first occurrence of each `document_id` kept (so a session
result beats a main result with the same id), stable-sorted descending by
score with absent scores as 0.0, truncated to `limit`. -/
theorem C2_query_with_filters_merge (session_chunks : List Search.PyDict)
    (response : Option (List Search.ScoredPoint)) (limit : Nat)
    (h : ∀ r ∈ session_chunks.map Search.sessionResultOf ++
        Search.query_with_filters_main response limit,
        Search.idTruthy r.document_id = true) :
    Search.query_with_filters session_chunks response limit =
      Search.claimed_merge (session_chunks.map Search.sessionResultOf)
        (Search.query_with_filters_main response limit) limit := by
  simp only [Search.query_with_filters, Search.claimed_merge]
  rw [show ([] : List (Option String)) = ([] : List String).map some from rfl,
    ← Search.dedupTruthyGo_eq_dedupByIdGo _ [] h]

namespace Search

theorem uniqueTitlesGo_eq_take (limit : Nat) (pts : List ScoredPoint) :
    ∀ (seen : List String) (count : Nat), count < limit →
      uniqueTitlesGo limit seen count pts = (allUniqueTitles seen pts).take (limit - count) := by
  induction pts with
  | nil => intros; simp [uniqueTitlesGo, allUniqueTitles]
  | cons point rest ih =>
      intro seen count hcount
      cases hT : pyGet (point.payload.getD {}).section_title
          (pyGet (point.payload.getD {}).title none) with
      | none =>
          simp only [uniqueTitlesGo, allUniqueTitles, hT]
          exact ih seen count hcount
      | some t =>
          simp only [uniqueTitlesGo, allUniqueTitles, hT]
          by_cases h1 : t = ""
          · simp only [if_pos h1]
            exact ih seen count hcount
          · simp only [if_neg h1]
            by_cases h2 : t ∈ seen
            · simp only [if_pos h2]
              exact ih seen count hcount
            · simp only [if_neg h2]
              have hlc : limit - count = (limit - count - 1) + 1 := by omega
              rw [hlc, List.take_succ_cons]
              by_cases hbreak : count + 1 ≥ limit
              · rw [if_pos hbreak]
                have hz : limit - count - 1 = 0 := by omega
                rw [hz, List.take_zero]
              · rw [if_neg hbreak, ih (t :: seen) (count + 1) (by omega)]
                have : limit - (count + 1) = limit - count - 1 := by omega
                rw [this]

theorem allUniqueTitles_titles_nodup (pts : List ScoredPoint) :
    ∀ seen : List String,
      ((allUniqueTitles seen pts).map (fun r => r.section_title)).Nodup ∧
      ∀ r ∈ allUniqueTitles seen pts, ∃ t, r.section_title = some t ∧ t ∉ seen := by
  induction pts with
  | nil => intro seen; exact ⟨by simp [allUniqueTitles], by simp [allUniqueTitles]⟩
  | cons point rest ih =>
      intro seen
      cases hT : pyGet (point.payload.getD {}).section_title
          (pyGet (point.payload.getD {}).title none) with
      | none =>
          simp only [allUniqueTitles, hT]
          exact ih seen
      | some t =>
          simp only [allUniqueTitles, hT]
          by_cases h1 : t = ""
          · simp only [if_pos h1]; exact ih seen
          · simp only [if_neg h1]
            by_cases h2 : t ∈ seen
            · simp only [if_pos h2]; exact ih seen
            · simp only [if_neg h2]
              have ihh := ih (t :: seen)
              constructor
              · rw [List.map_cons, List.nodup_cons]
                refine ⟨?_, ihh.1⟩
                intro hmem
                rcases List.mem_map.mp hmem with ⟨r, hr, hrt⟩
                rcases ihh.2 r hr with ⟨t2, ht2, hnot⟩
                rw [ht2] at hrt
                have : t2 = t := by injection hrt
                exact hnot (this ▸ List.mem_cons_self t2 seen)
              · intro r hr
                rcases List.mem_cons.mp hr with h | h
                · subst h
                  exact ⟨t, rfl, h2⟩
                · rcases ihh.2 r h with ⟨t2, ht2, hnot⟩
                  exact ⟨t2, ht2, fun hc => hnot (List.mem_cons_of_mem t hc)⟩

end Search

/-- C8 (amended): for every main-store response and every `limit ≥ 1`,
`query_unique_titles` returns at most `limit` results, no two returned
results share a `section_title`, and the returned list is exactly the
first `limit` entries of the full first-occurrence title deduplication of
the fused ranking (so dedup keeps the first occurrence, in order, and the
early exit changes nothing but the amount scanned).  The original claim
additionally asserted the bound for every limit including 0, which the
code violates (see the counterexample). -/
theorem C8_unique_titles_amended (response : Option (List Search.ScoredPoint)) (limit : Nat)
    (h : 1 ≤ limit) :
    (Search.query_unique_titles response limit).length ≤ limit ∧
    ((Search.query_unique_titles response limit).map (fun r => r.section_title)).Nodup ∧
    Search.query_unique_titles response limit =
      (match response with
       | some pts => (Search.allUniqueTitles [] pts).take limit
       | none => []) := by
  cases response with
  | none => exact ⟨by simp [Search.query_unique_titles], by simp [Search.query_unique_titles], rfl⟩
  | some pts =>
      have heq : Search.query_unique_titles (some pts) limit =
          (Search.allUniqueTitles [] pts).take limit := by
        simp only [Search.query_unique_titles]
        rw [Search.uniqueTitlesGo_eq_take limit pts [] 0 (by omega), Nat.sub_zero]
      refine ⟨?_, ?_, heq⟩
      · rw [heq]; exact List.length_take_le _ _
      · rw [heq]
        exact ((Search.allUniqueTitles_titles_nodup pts []).1).sublist
          ((List.take_sublist _ _).map _)

/-- C8 counterexample: at `limit = 0` the loop appends one result before
checking the break condition, so the function returns 1 result — more
than the requested limit.  This refutes the claim as stated ("returns at
most N results" for every N). -/
theorem C8_unique_titles_counterexample :
    (Search.query_unique_titles
        (some [{ id := 1, payload := some { section_title := some (some "Section 1") },
                 score := some 1 }]) 0).length = 1 ∧
    ¬((Search.query_unique_titles
        (some [{ id := 1, payload := some { section_title := some (some "Section 1") },
                 score := some 1 }]) 0).length ≤ 0) := by
  constructor
  · rfl
  · decide

/-- Witness for C8 (amended) at `limit = 1` and one concrete point. -/
theorem C8_unique_titles_amended_witness :
    1 ≤ 1 ∧
    (Search.query_unique_titles
        (some [{ id := 1, payload := some { section_title := some (some "Section 1") },
                 score := some 1 }]) 1).length ≤ 1 :=
  ⟨by decide,
   (C8_unique_titles_amended
      (some [{ id := 1, payload := some { section_title := some (some "Section 1") },
               score := some 1 }]) 1 (by decide)).1⟩

/-- Witness for C2 at concrete inputs: one session chunk and two main
points, one of which shares the session chunk's `document_id`. -/
theorem C2_query_with_filters_merge_witness :
    (∀ r ∈ [c2chunk].map Search.sessionResultOf ++
        Search.query_with_filters_main (some c2points) 3,
        Search.idTruthy r.document_id = true) ∧
    Search.query_with_filters [c2chunk] (some c2points) 3 =
      Search.claimed_merge ([c2chunk].map Search.sessionResultOf)
        (Search.query_with_filters_main (some c2points) 3) 3 :=
  ⟨by decide, C2_query_with_filters_merge [c2chunk] (some c2points) 3 (by decide)⟩

namespace Providers

theorem toLower_idem (c : Char) : Char.toLower (Char.toLower c) = Char.toLower c := by
  by_cases h : c.toNat ≥ 65 ∧ c.toNat ≤ 90
  · have hval : (Char.ofNat (c.toNat + 32)).toNat = c.toNat + 32 := by
      unfold Char.ofNat
      rw [dif_pos (Or.inl (by omega))]
      rfl
    have h1 : Char.toLower c = Char.ofNat (c.toNat + 32) := by
      simp only [Char.toLower]
      rw [if_pos h]
    rw [h1]
    simp only [Char.toLower]
    rw [if_neg (by rw [hval]; omega)]
  · have h1 : Char.toLower c = c := by
      simp only [Char.toLower]
      rw [if_neg h]
    rw [h1, h1]

theorem pyLower_idem (s : String) : pyLower (pyLower s) = pyLower s := by
  simp only [pyLower, List.map_map]
  congr 1
  exact List.map_congr_left fun c _ => toLower_idem c

end Providers

/-- C5: `get_streaming_function("natlas", ...)` resolves the registry's
`natlas` configuration — temperature 0.1 and `max_completion_tokens`
4000 — while for any provider name whose lower-casing is not a registry
key the very same call returns the `ValueError` (no value, hence no
stream closure and no network request, is ever produced). -/
theorem C5_provider_routing (query : String) (contexts : List Search.SearchResult)
    (selected_model : Option String) (p : String)
    (hp : Providers.regGet (Providers.pyLower p) Providers.MODEL_REGISTRY.models = none) :
    Generation.get_streaming_function "natlas" query contexts selected_model =
      Except.ok { provider_lower := "natlas",
                  config := { primary_model := "n-atlas", temperature := 0.1,
                              max_completion_tokens := 4000 } } ∧
    Generation.get_streaming_function p query contexts selected_model =
      Except.error ("ModelConfig not found for provider: " ++ Providers.pyLower p) := by
  constructor
  · rfl
  · simp only [Generation.get_streaming_function, Providers.ModelRegistry.get_config,
      Providers.pyLower_idem, hp]

/-- Witness for C5 at the concrete unknown provider name
`"unknown-provider"`. -/
theorem C5_provider_routing_witness :
    Providers.regGet (Providers.pyLower "unknown-provider") Providers.MODEL_REGISTRY.models =
      none ∧
    Generation.get_streaming_function "unknown-provider" "q" [] none =
      Except.error ("ModelConfig not found for provider: " ++
        Providers.pyLower "unknown-provider") :=
  ⟨by decide, (C5_provider_routing "q" [] none "unknown-provider" (by decide)).2⟩

/-- C4: with a configured base URL, whenever the underlying provider call
fails (`CreateResult.failure detail`, e.g. an unreachable backend), the
`stream_natlas` generator raises nothing and yields exactly one chunk —
the literal error string carrying the underlying detail — then ends. -/
theorem C4_stream_natlas_error_chunk (llm_base_url detail : String)
    (h : llm_base_url ≠ "") :
    Natlas.stream_natlas llm_base_url (Natlas.CreateResult.failure detail) =
      { chunks := ["__error__: Failed to connect to N-ATLaS LLM service. Please ensure the Modal service is deployed and running. Error: " ++ detail],
        raised := none } := by
  simp only [Natlas.stream_natlas, if_neg h]
  rfl

/-- Witness for C4 at a concrete base URL and error detail. -/
theorem C4_stream_natlas_error_chunk_witness :
    ("https://modal.example" : String) ≠ "" ∧
    Natlas.stream_natlas "https://modal.example"
        (Natlas.CreateResult.failure "Connection refused") =
      { chunks := ["__error__: Failed to connect to N-ATLaS LLM service. Please ensure the Modal service is deployed and running. Error: " ++ "Connection refused"],
        raised := none } :=
  ⟨by decide, C4_stream_natlas_error_chunk "https://modal.example" "Connection refused"
    (by decide)⟩

/-- C3 counterexample: even on an all-success run, the emitted stream
contains the "✓ Rights analyzed" completion marker twice (once from the
query loop and once from the re-emission loop), refuting "followed by
exactly one of the three completion markers for that label". -/
theorem C3_counterexample_double_marker :
    Analysis.completionCount
        (Analysis.riskQueryEmissions (Analysis.QueryOutcome.ok [])
          (Analysis.QueryOutcome.ok []) (Analysis.QueryOutcome.ok [])).1 "rights" = 2 ∧
    ¬(∀ l ∈ Analysis.labels,
        Analysis.completionCount
          (Analysis.riskQueryEmissions (Analysis.QueryOutcome.ok [])
            (Analysis.QueryOutcome.ok []) (Analysis.QueryOutcome.ok [])).1 l = 1) := by
  constructor
  · rfl
  · decide

/-- C3 (amended): on a cache miss the stream emits, after the
"Starting analysis..." line, for each of the three fixed queries in
order, "Analyzing {label}..." immediately followed by exactly one of the
three completion markers for that label; then — beyond what the original
claim stated — one extra "✓ {Label} analyzed" line per label regardless
of outcome, so every label ends up with exactly two completion markers in
the stream; and a timeout or error in one query is recorded as an empty
context list for that query while all three queries still run and are
recorded in order. -/
theorem C3_progress_lines_amended (o1 o2 o3 : Analysis.QueryOutcome) :
    (Analysis.riskQueryEmissions o1 o2 o3).1 =
      ["__progress__:Starting analysis...\n",
       Analysis.analyzingLine "rights", Analysis.markerLine "rights" o1,
       Analysis.analyzingLine "warnings", Analysis.markerLine "warnings" o2,
       Analysis.analyzingLine "procedures", Analysis.markerLine "procedures" o3,
       Analysis.analyzedLine "rights", Analysis.analyzedLine "warnings",
       Analysis.analyzedLine "procedures"] ∧
    (Analysis.riskQueryEmissions o1 o2 o3).2 =
      [("rights", Analysis.recordedContexts o1),
       ("warnings", Analysis.recordedContexts o2),
       ("procedures", Analysis.recordedContexts o3)] ∧
    (∀ l ∈ Analysis.labels,
        Analysis.completionCount (Analysis.riskQueryEmissions o1 o2 o3).1 l = 2) := by
  refine ⟨rfl, rfl, ?_⟩
  cases o1 <;> cases o2 <;> cases o3 <;> exact of_decide_eq_true rfl

namespace Splitter

theorem splitAtSep_spec (sep : List Char) :
    ∀ text pre post, splitAtSep sep text = some (pre, post) →
      pre ++ post = text ∧ sep.length ≤ pre.length := by
  intro text
  induction text with
  | nil => intro pre post h; simp [splitAtSep] at h
  | cons c rest ih =>
      intro pre post h
      rw [splitAtSep] at h
      by_cases hp : sep.isPrefixOf (c :: rest)
      · rw [if_pos hp] at h
        injection h with h2
        injection h2 with hpre hpost
        subst hpre
        subst hpost
        obtain ⟨t, ht⟩ := List.isPrefixOf_iff_prefix.mp hp
        constructor
        · conv_rhs => rw [← ht]
          rw [← ht, List.drop_left]
        · exact Nat.le_refl _
      · rw [if_neg hp] at h
        rcases Option.map_eq_some'.mp h with ⟨⟨p1, p2⟩, heq, hmk⟩
        injection hmk with hpre hpost
        subst hpre
        subst hpost
        obtain ⟨hjoin, hlen⟩ := ih p1 p2 heq
        constructor
        · rw [List.cons_append, hjoin]
        · exact Nat.le_trans hlen (by simp)

theorem splitKeepSepGo_join (sep : List Char) (hs : sep ≠ []) :
    ∀ (fuel : Nat) (text : List Char), text.length ≤ fuel →
      (splitKeepSepGo sep fuel text).flatten = text := by
  intro fuel
  induction fuel with
  | zero =>
      intro text hlen
      have : text = [] := List.eq_nil_of_length_eq_zero (Nat.le_zero.mp hlen)
      subst this
      simp [splitKeepSepGo]
  | succ n ih =>
      intro text hlen
      rw [splitKeepSepGo]
      split
      · split
        · simpa
        · simp
      · next pre post h =>
          obtain ⟨hjoin, hsl⟩ := splitAtSep_spec sep text pre post h
          have hsep : 1 ≤ sep.length := by
            cases hc : sep with
            | nil => exact absurd hc hs
            | cons a l => simp
          have hlt : post.length ≤ n := by
            have := congrArg List.length hjoin
            simp only [List.length_append] at this
            omega
          rw [List.flatten_cons, ih post hlt, hjoin]

theorem splitKeepSep_join (sep : List Char) (hs : sep ≠ []) (text : List Char) :
    (splitKeepSep sep text).flatten = text :=
  splitKeepSepGo_join sep hs text.length text (Nat.le_refl _)

theorem flatten_flatMap_of (g : List Char → List (List Char)) :
    ∀ l : List (List Char), (∀ p ∈ l, (g p).flatten = p) →
      (l.flatMap g).flatten = l.flatten := by
  intro l
  induction l with
  | nil => intro _; rfl
  | cons p ps ih =>
      intro h
      rw [List.flatMap_cons, List.flatten_append, List.flatten_cons,
        h p (List.mem_cons_self p ps), ih fun q hq => h q (List.mem_cons_of_mem p hq)]

theorem flatten_map_singleton : ∀ l : List Char, (l.map fun c => [c]).flatten = l := by
  intro l
  induction l with
  | nil => rfl
  | cons c cs ih => simp [ih]

theorem recSplit_flatten (chunkSize : Nat) :
    ∀ (seps : List (List Char)) (text : List Char),
      (recSplit chunkSize seps text).flatten = text := by
  intro seps
  induction seps with
  | nil => intro text; simp [recSplit]
  | cons sep rest ih =>
      intro text
      rw [recSplit]
      by_cases hle : text.length ≤ chunkSize
      · rw [if_pos hle]; simp
      · rw [if_neg hle]
        by_cases hs : sep = []
        · simp only [hs, dif_pos]
          exact flatten_map_singleton text
        · simp only [dif_neg hs]
          rw [flatten_flatMap_of _ _ fun p _ => ih p, splitKeepSep_join sep hs text]

theorem recSplit_le (chunkSize : Nat) (hcs : 1 ≤ chunkSize) :
    ∀ (seps : List (List Char)) (text : List Char), [] ∈ seps →
      ∀ p ∈ recSplit chunkSize seps text, p.length ≤ chunkSize := by
  intro seps
  induction seps with
  | nil => intro text hmem; simp at hmem
  | cons sep rest ih =>
      intro text hmem p hp
      rw [recSplit] at hp
      by_cases hle : text.length ≤ chunkSize
      · rw [if_pos hle] at hp
        rcases List.mem_singleton.mp hp with h
        subst h
        exact hle
      · rw [if_neg hle] at hp
        by_cases hs : sep = []
        · simp only [hs, dif_pos] at hp
          rcases List.mem_map.mp hp with ⟨c, _, hc⟩
          subst hc
          simpa using hcs
        · simp only [dif_neg hs] at hp
          rcases List.mem_flatMap.mp hp with ⟨piece, _, hpi⟩
          have hrest : ([] : List Char) ∈ rest := by
            rcases List.mem_cons.mp hmem with h | h
            · exact absurd h.symm hs
            · exact h
          exact ih piece hrest p hpi

theorem mergeAux_contribs (chunkSize ovLen : Nat) :
    ∀ (ps : List (List Char)) (cur : ChunkPiece),
      ((mergeAux chunkSize ovLen cur ps).map (fun c => c.contrib)).flatten =
        cur.contrib ++ ps.flatten := by
  intro ps
  induction ps with
  | nil => intro cur; simp [mergeAux]
  | cons p ps ih =>
      intro cur
      rw [mergeAux]
      by_cases h : cur.ov.length + cur.contrib.length + p.length ≤ chunkSize
      · rw [if_pos h, ih]
        simp [List.append_assoc]
      · rw [if_neg h]
        simp only [List.map_cons, List.flatten_cons, ih]

theorem mergePieces_contribs (chunkSize ovLen : Nat) (pieces : List (List Char)) :
    ((mergePieces chunkSize ovLen pieces).map (fun c => c.contrib)).flatten = pieces.flatten := by
  cases pieces with
  | nil => rfl
  | cons p ps =>
      rw [mergePieces, mergeAux_contribs]
      simp

theorem takeRight_length_le (n : Nat) (l : List Char) : (takeRight n l).length ≤ n := by
  simp only [takeRight, List.length_drop]
  omega

theorem mergeAux_le (chunkSize ovLen : Nat) :
    ∀ (ps : List (List Char)) (cur : ChunkPiece), (∀ p ∈ ps, p.length ≤ chunkSize) →
      (chunkOf cur).length ≤ chunkSize →
      ∀ c ∈ mergeAux chunkSize ovLen cur ps, (chunkOf c).length ≤ chunkSize := by
  intro ps
  induction ps with
  | nil =>
      intro cur _ hcur c hc
      rcases List.mem_singleton.mp hc with h
      subst h
      exact hcur
  | cons p ps ih =>
      intro cur hps hcur c hc
      have hp : p.length ≤ chunkSize := hps p (List.mem_cons_self p ps)
      have hps2 : ∀ q ∈ ps, q.length ≤ chunkSize := fun q hq => hps q (List.mem_cons_of_mem p hq)
      rw [mergeAux] at hc
      by_cases h : cur.ov.length + cur.contrib.length + p.length ≤ chunkSize
      · rw [if_pos h] at hc
        refine ih _ hps2 ?_ c hc
        simp only [chunkOf, List.length_append]
        omega
      · rw [if_neg h] at hc
        rcases List.mem_cons.mp hc with hcc | hcc
        · subst hcc; exact hcur
        · refine ih _ hps2 ?_ c hcc
          simp only [chunkOf, List.length_append]
          have h1 : (takeRight (min ovLen (chunkSize - p.length))
              (cur.ov ++ cur.contrib)).length ≤ chunkSize - p.length :=
            Nat.le_trans (takeRight_length_le _ _) (Nat.min_le_right _ _)
          omega

theorem mergeAux_head_ov (chunkSize ovLen : Nat) :
    ∀ (ps : List (List Char)) (cur : ChunkPiece),
      ∃ c rest, mergeAux chunkSize ovLen cur ps = c :: rest ∧ c.ov = cur.ov := by
  intro ps
  induction ps with
  | nil => intro cur; exact ⟨cur, [], rfl, rfl⟩
  | cons p ps ih =>
      intro cur
      rw [mergeAux]
      by_cases h : cur.ov.length + cur.contrib.length + p.length ≤ chunkSize
      · rw [if_pos h]
        exact ih _
      · rw [if_neg h]
        exact ⟨cur, _, rfl, rfl⟩

theorem mergeAux_chain (chunkSize ovLen : Nat) :
    ∀ (ps : List (List Char)) (cur : ChunkPiece),
      List.Chain' (fun a b => b.ov <:+ chunkOf a ∧ b.ov.length ≤ ovLen)
        (mergeAux chunkSize ovLen cur ps) := by
  intro ps
  induction ps with
  | nil => intro cur; simp [mergeAux]
  | cons p ps ih =>
      intro cur
      rw [mergeAux]
      by_cases h : cur.ov.length + cur.contrib.length + p.length ≤ chunkSize
      · rw [if_pos h]
        exact ih _
      · rw [if_neg h]
        rw [List.chain'_cons']
        constructor
        · intro b hb
          obtain ⟨c, rest, heq, hov⟩ := mergeAux_head_ov chunkSize ovLen ps
            { ov := takeRight (min ovLen (chunkSize - p.length)) (chunkOf cur), contrib := p }
          rw [heq] at hb
          simp only [List.head?_cons, Option.mem_def, Option.some.injEq] at hb
          subst hb
          rw [hov]
          constructor
          · exact List.drop_suffix _ _
          · exact Nat.le_trans (takeRight_length_le _ _) (Nat.min_le_left _ _)
        · exact ih _

theorem mergePieces_le (chunkSize ovLen : Nat) (pieces : List (List Char))
    (h : ∀ p ∈ pieces, p.length ≤ chunkSize) :
    ∀ c ∈ mergePieces chunkSize ovLen pieces, (chunkOf c).length ≤ chunkSize := by
  cases pieces with
  | nil => intro c hc; simp [mergePieces] at hc
  | cons p ps =>
      intro c hc
      refine mergeAux_le chunkSize ovLen ps _ ?_ ?_ c hc
      · exact fun q hq => h q (List.mem_cons_of_mem p hq)
      · simpa [chunkOf] using h p (List.mem_cons_self p ps)

theorem mergePieces_head_ov (chunkSize ovLen : Nat) (pieces : List (List Char)) :
    ∀ c ∈ (mergePieces chunkSize ovLen pieces).head?, c.ov = [] := by
  cases pieces with
  | nil => intro c hc; simp [mergePieces] at hc
  | cons p ps =>
      intro c hc
      obtain ⟨c2, rest, heq, hov⟩ := mergeAux_head_ov chunkSize ovLen ps { ov := [], contrib := p }
      rw [mergePieces, heq] at hc
      simp only [List.head?_cons, Option.mem_def, Option.some.injEq] at hc
      subst hc
      exact hov

theorem mergePieces_chain (chunkSize ovLen : Nat) (pieces : List (List Char)) :
    List.Chain' (fun a b => b.ov <:+ chunkOf a ∧ b.ov.length ≤ ovLen)
      (mergePieces chunkSize ovLen pieces) := by
  cases pieces with
  | nil => simp [mergePieces]
  | cons p ps => exact mergeAux_chain chunkSize ovLen ps _

end Splitter

/-- C9: for every text `T`, splitting with the default chunk size 4000 and
overlap 400 yields chunks of length at most 4000 (the empty-string
fallback separator makes every token divisible, so the bound holds
unconditionally), and the chunks decompose as `overlap ++ contribution`
where the contributions concatenate back to exactly `T`, the first chunk
has no overlap, and each later chunk's overlap region is a suffix of the
previous chunk of length at most 400 — removing the overlapping regions
reconstructs `T` exactly. -/
theorem C9_split_text_reconstruction (T : String) :
    (∀ chunk ∈ Splitter.split_text T, chunk.length ≤ 4000) ∧
    ∃ parts : List Splitter.ChunkPiece,
      Splitter.split_text T = parts.map (fun c => String.mk (Splitter.chunkOf c)) ∧
      (parts.map fun c => c.contrib).flatten = T.data ∧
      (∀ c ∈ parts.head?, c.ov = []) ∧
      List.Chain' (fun a b => b.ov <:+ Splitter.chunkOf a ∧ b.ov.length ≤ 400) parts := by
  constructor
  · intro chunk hc
    rcases List.mem_map.mp hc with ⟨c, hcm, hck⟩
    have hpieces : ∀ p ∈ Splitter.recSplit Splitter.chunk_size
        (Splitter.separators.map String.data) T.data, p.length ≤ Splitter.chunk_size := by
      intro p hp
      refine Splitter.recSplit_le Splitter.chunk_size (by decide) _ T.data ?_ p hp
      decide
    have := Splitter.mergePieces_le Splitter.chunk_size Splitter.chunk_overlap _ hpieces c hcm
    rw [← hck]
    exact this
  · refine ⟨Splitter.mergePieces Splitter.chunk_size Splitter.chunk_overlap
      (Splitter.recSplit Splitter.chunk_size (Splitter.separators.map String.data) T.data),
      rfl, ?_, ?_, ?_⟩
    · rw [Splitter.mergePieces_contribs, Splitter.recSplit_flatten]
    · exact Splitter.mergePieces_head_ov _ _ _
    · exact Splitter.mergePieces_chain _ _ _

/-- C1 (code bug): for a text the shared splitter divides into one chunk,
`ingest_document` raises `AttributeError` instead of upserting the
described payloads: the semantic keyword arguments are silently dropped
by pydantic (the model declares only the legacy field names), so
`payload.url` — the field its own docstring designates as `document_id` —
stays `None` and `payload.url.encode()` raises before any upsert. -/
theorem C1_session_ingest_attribute_error :
    Splitter.split_text "hello world" = ["hello world"] ∧
    SessionStore.ingest_document "sess-1" "hello world" "agreement.pdf" =
      Except.error "AttributeError: NoneType object has no attribute encode" := by
  constructor
  · rfl
  · rfl

/-- C6 (code bug): re-running ingestion with skip-existing enabled over a
single item (built exactly as `create_document_items_from_pdf` builds it)
raises `AttributeError` at the very first skip-check — `ArticleItem`
declares none of the semantic attributes the task reads — so nothing is
skipped, batched, or inserted; the database is untouched and the session
is still closed by the `finally`. -/
theorem C6_ingest_documents_attribute_error :
    Ingest.ingest_documents 5 []
        [Ingest.articleItemInit "Lagos State Tenancy Law 2011" "Lagos State"
          "Lagos State Tenancy Law 2011" "lagos-tenancy-law-2011" "some text" [] none]
        true =
      { db := [], skipped := 0, errors := [],
        raised := some "AttributeError: ArticleItem object has no attribute document_id",
        sessionClosed := true } := by
  rfl
